import Mathlib

/-!
Verification development for the bidirectional audio/text streaming session
manager of the metro-bot repository (`NovaSonicBidirectionalStreamClient` and
`StreamSession`).  The TypeScript source is shallowly embedded: JavaScript
values flowing through the protocol are modelled by an inductive `Json` type,
the mutable client object by an explicit `ClientState` record that every
operation threads through, and exceptions by `Except String`.  JavaScript
numbers are modelled by `Int`; no verified property performs arithmetic on
them, they are only carried through the protocol unchanged.
-/

/-- Json values as produced by `JSON.parse` / consumed by `JSON.stringify`.
Object fields keep insertion order, as JavaScript objects do. -/
inductive Json where
  | null : Json
  | bool : Bool → Json
  | num : Int → Json
  | str : String → Json
  | arr : List Json → Json
  | obj : List (String × Json) → Json

mutual

/-- Decidable equality on `Json`, written out by hand because the nested
inductive prevents automatic derivation. -/
def jsonDecEq : (a b : Json) → Decidable (a = b)
  | Json.null, Json.null => isTrue rfl
  | Json.bool x, Json.bool y =>
    match decEq x y with
    | isTrue h => isTrue (h ▸ rfl)
    | isFalse h => isFalse (fun he => h (Json.bool.inj he))
  | Json.num x, Json.num y =>
    match decEq x y with
    | isTrue h => isTrue (h ▸ rfl)
    | isFalse h => isFalse (fun he => h (Json.num.inj he))
  | Json.str x, Json.str y =>
    match decEq x y with
    | isTrue h => isTrue (h ▸ rfl)
    | isFalse h => isFalse (fun he => h (Json.str.inj he))
  | Json.arr xs, Json.arr ys =>
    match jsonDecEqList xs ys with
    | isTrue h => isTrue (h ▸ rfl)
    | isFalse h => isFalse (fun he => h (Json.arr.inj he))
  | Json.obj fs, Json.obj gs =>
    match jsonDecEqFields fs gs with
    | isTrue h => isTrue (h ▸ rfl)
    | isFalse h => isFalse (fun he => h (Json.obj.inj he))
  | Json.null, Json.bool _ => isFalse (fun h => Json.noConfusion h)
  | Json.null, Json.num _ => isFalse (fun h => Json.noConfusion h)
  | Json.null, Json.str _ => isFalse (fun h => Json.noConfusion h)
  | Json.null, Json.arr _ => isFalse (fun h => Json.noConfusion h)
  | Json.null, Json.obj _ => isFalse (fun h => Json.noConfusion h)
  | Json.bool _, Json.null => isFalse (fun h => Json.noConfusion h)
  | Json.bool _, Json.num _ => isFalse (fun h => Json.noConfusion h)
  | Json.bool _, Json.str _ => isFalse (fun h => Json.noConfusion h)
  | Json.bool _, Json.arr _ => isFalse (fun h => Json.noConfusion h)
  | Json.bool _, Json.obj _ => isFalse (fun h => Json.noConfusion h)
  | Json.num _, Json.null => isFalse (fun h => Json.noConfusion h)
  | Json.num _, Json.bool _ => isFalse (fun h => Json.noConfusion h)
  | Json.num _, Json.str _ => isFalse (fun h => Json.noConfusion h)
  | Json.num _, Json.arr _ => isFalse (fun h => Json.noConfusion h)
  | Json.num _, Json.obj _ => isFalse (fun h => Json.noConfusion h)
  | Json.str _, Json.null => isFalse (fun h => Json.noConfusion h)
  | Json.str _, Json.bool _ => isFalse (fun h => Json.noConfusion h)
  | Json.str _, Json.num _ => isFalse (fun h => Json.noConfusion h)
  | Json.str _, Json.arr _ => isFalse (fun h => Json.noConfusion h)
  | Json.str _, Json.obj _ => isFalse (fun h => Json.noConfusion h)
  | Json.arr _, Json.null => isFalse (fun h => Json.noConfusion h)
  | Json.arr _, Json.bool _ => isFalse (fun h => Json.noConfusion h)
  | Json.arr _, Json.num _ => isFalse (fun h => Json.noConfusion h)
  | Json.arr _, Json.str _ => isFalse (fun h => Json.noConfusion h)
  | Json.arr _, Json.obj _ => isFalse (fun h => Json.noConfusion h)
  | Json.obj _, Json.null => isFalse (fun h => Json.noConfusion h)
  | Json.obj _, Json.bool _ => isFalse (fun h => Json.noConfusion h)
  | Json.obj _, Json.num _ => isFalse (fun h => Json.noConfusion h)
  | Json.obj _, Json.str _ => isFalse (fun h => Json.noConfusion h)
  | Json.obj _, Json.arr _ => isFalse (fun h => Json.noConfusion h)

/-- Decidable equality on lists of `Json`. -/
def jsonDecEqList : (a b : List Json) → Decidable (a = b)
  | [], [] => isTrue rfl
  | [], _ :: _ => isFalse (fun h => List.noConfusion h)
  | _ :: _, [] => isFalse (fun h => List.noConfusion h)
  | x :: xs, y :: ys =>
    match jsonDecEq x y with
    | isFalse h => isFalse (fun he => h (List.cons.inj he).1)
    | isTrue h1 =>
      match jsonDecEqList xs ys with
      | isTrue h2 => isTrue (h1 ▸ h2 ▸ rfl)
      | isFalse h => isFalse (fun he => h (List.cons.inj he).2)

/-- Decidable equality on `Json` object field lists. -/
def jsonDecEqFields : (a b : List (String × Json)) → Decidable (a = b)
  | [], [] => isTrue rfl
  | [], _ :: _ => isFalse (fun h => List.noConfusion h)
  | _ :: _, [] => isFalse (fun h => List.noConfusion h)
  | (k, v) :: xs, (k', v') :: ys =>
    match decEq k k' with
    | isFalse h => isFalse (fun he => h (congrArg Prod.fst (List.cons.inj he).1))
    | isTrue h1 =>
      match jsonDecEq v v' with
      | isFalse h => isFalse (fun he => h (congrArg Prod.snd (List.cons.inj he).1))
      | isTrue h2 =>
        match jsonDecEqFields xs ys with
        | isTrue h3 => isTrue (h1 ▸ h2 ▸ h3 ▸ rfl)
        | isFalse h => isFalse (fun he => h (List.cons.inj he).2)

end

instance : DecidableEq Json := jsonDecEq

/-- Decidable equality for `Except` results, so that concrete runs of the
fallible operations can be checked by `decide`. -/
instance {ε α : Type} [DecidableEq ε] [DecidableEq α] : DecidableEq (Except ε α) := fun a b =>
  match a, b with
  | Except.error x, Except.error y =>
    match decEq x y with
    | isTrue h => isTrue (h ▸ rfl)
    | isFalse h => isFalse (fun he => h (Except.error.inj he))
  | Except.ok x, Except.ok y =>
    match decEq x y with
    | isTrue h => isTrue (h ▸ rfl)
    | isFalse h => isFalse (fun he => h (Except.ok.inj he))
  | Except.error _, Except.ok _ => isFalse (fun h => Except.noConfusion h)
  | Except.ok _, Except.error _ => isFalse (fun h => Except.noConfusion h)

/-- Property access `v[k]` on a JavaScript value: on an object the last
binding for the key wins (as for duplicate keys in object literals and
`JSON.parse`); on every other value the access yields `undefined`,
modelled as `none`. -/
def jget (v : Json) (k : String) : Option Json :=
  match v with
  | Json.obj fs => fs.foldl (fun acc p => if p.1 = k then some p.2 else acc) none
  | _ => none

/-- Optional-chaining access `o?.k` on a possibly-undefined value. -/
def jchain (o : Option Json) (k : String) : Option Json :=
  match o with
  | some v => jget v k
  | none => none

/-- Property access defaulting to `Json.null` for `undefined`, used where the
source stores the accessed value into an `any`-typed field. -/
def jgetD (v : Json) (k : String) : Json :=
  (jget v k).getD Json.null

/-- JavaScript truthiness of a parsed-JSON value. -/
def truthy (v : Json) : Bool :=
  match v with
  | Json.null => false
  | Json.bool b => b
  | Json.num n => decide (n ≠ 0)
  | Json.str s => decide (s ≠ "")
  | Json.arr _ => true
  | Json.obj _ => true

/-- Truthiness of a possibly-undefined value (`undefined` is falsy). -/
def truthyO (o : Option Json) : Bool :=
  match o with
  | some v => truthy v
  | none => false

/-- The JavaScript test `typeof v === 'object'` on a parsed-JSON value:
true for objects, arrays and `null`. -/
def isObjectType (v : Json) : Bool :=
  match v with
  | Json.obj _ => true
  | Json.arr _ => true
  | Json.null => true
  | _ => false

/-- Variant of `isObjectType` for a possibly-undefined value. -/
def isObjectTypeO (o : Option Json) : Bool :=
  match o with
  | some v => isObjectType v
  | none => false

/-- The JavaScript `'k' in v` test as it behaves on plain parsed objects. -/
def hasKey (v : Json) (k : String) : Bool :=
  match v with
  | Json.obj fs => fs.any (fun p => p.1 = k)
  | _ => false

/-- Keys of `Object.keys(v)`: field names for objects, index strings for
arrays and strings, empty for primitives. -/
def jkeys (v : Json) : List String :=
  match v with
  | Json.obj fs => fs.map (fun p => p.1)
  | Json.arr xs => (List.range xs.length).map (fun n => toString n)
  | Json.str s => (List.range s.length).map (fun n => toString n)
  | _ => []

def lbraceChar : Char := Char.ofNat 123

def rbraceChar : Char := Char.ofNat 125

/-- Two lowercase hex digits of a byte, for `\u00XX` escapes. -/
def hexByte (n : Nat) : String :=
  let digit := fun (d : Nat) =>
    if d < 10 then Char.ofNat (48 + d) else Char.ofNat (87 + d)
  String.singleton (digit ((n / 16) % 16)) ++ String.singleton (digit (n % 16))

/-- Escaping of one character inside a JSON string literal, following
`JSON.stringify`. -/
def jsonEscapeChar (c : Char) : String :=
  if c = '"' then "\\\""
  else if c = '\\' then "\\\\"
  else if c = '\n' then "\\n"
  else if c = '\r' then "\\r"
  else if c = '\t' then "\\t"
  else if c.toNat < 32 then "\\u00" ++ hexByte c.toNat
  else String.singleton c

/-- Quoted JSON string literal for `s`. -/
def jsonQuote (s : String) : String :=
  "\"" ++ String.join (s.data.map jsonEscapeChar) ++ "\""

mutual

/-- Serialization of a `Json` value following `JSON.stringify` (no spacing). -/
def jsonStringify : Json → String
  | Json.null => "null"
  | Json.bool true => "true"
  | Json.bool false => "false"
  | Json.num n => toString n
  | Json.str s => jsonQuote s
  | Json.arr xs => "[" ++ jsonStringifyList xs ++ "]"
  | Json.obj fs => String.singleton lbraceChar ++ jsonStringifyFields fs ++ String.singleton rbraceChar

/-- Comma-separated serialization of array elements. -/
def jsonStringifyList : List Json → String
  | [] => ""
  | [x] => jsonStringify x
  | x :: y :: xs => jsonStringify x ++ "," ++ jsonStringifyList (y :: xs)

/-- Comma-separated serialization of object fields. -/
def jsonStringifyFields : List (String × Json) → String
  | [] => ""
  | [(k, v)] => jsonQuote k ++ ":" ++ jsonStringify v
  | (k, v) :: f :: fs => jsonQuote k ++ ":" ++ jsonStringify v ++ "," ++ jsonStringifyFields (f :: fs)

end

/-- UTF-8 encoding of one character as a byte list. -/
def utf8EncodeChar (c : Char) : List Nat :=
  let n := c.toNat
  if n < 128 then [n]
  else if n < 2048 then [192 + n / 64, 128 + n % 64]
  else if n < 65536 then [224 + n / 4096, 128 + (n / 64) % 64, 128 + n % 64]
  else [240 + n / 262144, 128 + (n / 4096) % 64, 128 + (n / 64) % 64, 128 + n % 64]

/-- UTF-8 encoding of a string, modelling `new TextEncoder().encode(s)`. -/
def utf8Encode (s : String) : List Nat :=
  (s.data.map utf8EncodeChar).flatten

/-- Raw audio chunk (a Node `Buffer`), modelled as a list of bytes. -/
abbrev Chunk := List Nat

def base64Alphabet : String :=
  "ABCDEFGHIJKLMNOPQRSTUVWXYZabcdefghijklmnopqrstuvwxyz0123456789+/"

def b64Char (n : Nat) : Char :=
  base64Alphabet.data.getD n 'A'

/-- Base64 encoding of a byte list, modelling `buffer.toString('base64')`. -/
def base64Encode : List Nat → String
  | [] => ""
  | [a] =>
    String.singleton (b64Char ((a % 256) / 4)) ++
    String.singleton (b64Char ((a % 4) * 16)) ++ "=="
  | [a, b] =>
    String.singleton (b64Char ((a % 256) / 4)) ++
    String.singleton (b64Char ((a % 4) * 16 + (b % 256) / 16)) ++
    String.singleton (b64Char ((b % 16) * 4)) ++ "="
  | a :: b :: c :: rest =>
    String.singleton (b64Char ((a % 256) / 4)) ++
    String.singleton (b64Char ((a % 4) * 16 + (b % 256) / 16)) ++
    String.singleton (b64Char ((b % 16) * 4 + (c % 256) / 64)) ++
    String.singleton (b64Char (c % 64)) ++
    base64Encode rest

/-- Whitespace skipping for the JSON reader. -/
def jpSkipWs : List Char → List Char
  | c :: cs => if c = ' ' ∨ c = '\n' ∨ c = '\t' ∨ c = '\r' then jpSkipWs cs else c :: cs
  | [] => []

/-- Reading of a JSON string body after the opening quote. -/
def jpString : List Char → Option (String × List Char)
  | '"' :: cs => some ("", cs)
  | '\\' :: c :: cs =>
    match (match c with
      | '"' => some "\""
      | '\\' => some "\\"
      | '/' => some "/"
      | 'n' => some "\n"
      | 't' => some "\t"
      | 'r' => some "\r"
      | _ => none) with
    | none => none
    | some esc =>
      match jpString cs with
      | none => none
      | some (rest, cs') => some (esc ++ rest, cs')
  | c :: cs =>
    match jpString cs with
    | none => none
    | some (rest, cs') => some (String.singleton c ++ rest, cs')
  | [] => none

/-- Reading of consecutive decimal digits, accumulating their value. -/
def jpDigits : List Char → Nat → Nat × List Char
  | c :: cs, acc =>
    if c.isDigit then jpDigits cs (acc * 10 + (c.toNat - 48)) else (acc, c :: cs)
  | [], acc => (acc, [])

mutual

/-- Fuel-indexed recursive-descent JSON reader for one value, modelling
`JSON.parse` on the integer-numeral fragment of JSON used by this protocol. -/
def jpValue : Nat → List Char → Option (Json × List Char)
  | 0, _ => none
  | Nat.succ fuel, cs =>
    match jpSkipWs cs with
    | 'n' :: 'u' :: 'l' :: 'l' :: cs' => some (Json.null, cs')
    | 't' :: 'r' :: 'u' :: 'e' :: cs' => some (Json.bool true, cs')
    | 'f' :: 'a' :: 'l' :: 's' :: 'e' :: cs' => some (Json.bool false, cs')
    | '"' :: cs' =>
      match jpString cs' with
      | none => none
      | some (s, cs'') => some (Json.str s, cs'')
    | '-' :: c :: cs' =>
      if c.isDigit then
        let (n, cs'') := jpDigits cs' (c.toNat - 48)
        some (Json.num (-(n : Int)), cs'')
      else none
    | '[' :: cs' => jpArrayItems fuel (jpSkipWs cs')
    | c :: cs' =>
      if c = lbraceChar then jpObjFields fuel (jpSkipWs cs')
      else if c.isDigit then
        let (n, cs'') := jpDigits cs' (c.toNat - 48)
        some (Json.num (n : Int), cs'')
      else none
    | [] => none

/-- Reading of array items after `[`, with the head whitespace skipped. -/
def jpArrayItems : Nat → List Char → Option (Json × List Char)
  | 0, _ => none
  | Nat.succ fuel, cs =>
    match cs with
    | ']' :: cs' => some (Json.arr [], cs')
    | _ =>
      match jpValue fuel cs with
      | none => none
      | some (v, cs') =>
        match jpSkipWs cs' with
        | ',' :: cs'' =>
          match jpArrayItems fuel (jpSkipWs cs'') with
          | some (Json.arr vs, cs3) => some (Json.arr (v :: vs), cs3)
          | _ => none
        | ']' :: cs'' => some (Json.arr [v], cs'')
        | _ => none

/-- Reading of object fields after the opening brace, with the head
whitespace skipped. -/
def jpObjFields : Nat → List Char → Option (Json × List Char)
  | 0, _ => none
  | Nat.succ fuel, cs =>
    match cs with
    | '"' :: cs' =>
      match jpString cs' with
      | none => none
      | some (k, cs'') =>
        match jpSkipWs cs'' with
        | ':' :: cs3 =>
          match jpValue fuel cs3 with
          | none => none
          | some (v, cs4) =>
            match jpSkipWs cs4 with
            | ',' :: cs5 =>
              match jpObjFields fuel (jpSkipWs cs5) with
              | some (Json.obj fs, cs6) => some (Json.obj ((k, v) :: fs), cs6)
              | _ => none
            | c :: cs5 =>
              if c = rbraceChar then some (Json.obj [(k, v)], cs5) else none
            | [] => none
        | _ => none
    | c :: cs' =>
      if c = rbraceChar then some (Json.obj [], cs') else none
    | [] => none

end

/-- The model of `JSON.parse`: `none` stands for a thrown `SyntaxError`. -/
def jsonParse (s : String) : Option Json :=
  match jpValue (s.length + 1) s.data with
  | some (v, rest) => if jpSkipWs rest = [] then some v else none
  | none => none

/-- Lookup in an insertion-ordered string-keyed map (a JavaScript `Map`). -/
def mget {α : Type} : List (String × α) → String → Option α
  | [], _ => none
  | p :: ps, k => if p.1 = k then some p.2 else mget ps k

/-- Update-or-append in an insertion-ordered map, as `Map.prototype.set`. -/
def mset {α : Type} : List (String × α) → String → α → List (String × α)
  | [], k, v => [(k, v)]
  | p :: ps, k, v => if p.1 = k then (k, v) :: ps else p :: mset ps k v

/-- Deletion from an insertion-ordered map, as `Map.prototype.delete`. -/
def mdel {α : Type} : List (String × α) → String → List (String × α)
  | [], _ => []
  | p :: ps, k => if p.1 = k then ps else p :: mdel ps k

/-!
State model of `NovaSonicBidirectionalStreamClient` (src/unnamed/part_013).
Each `SessionData` mirrors the interface of the same name; the rxjs
`queueSignal`/`closeSignal` subjects are not stored: their only observable
effect is to wake the async iterator's `next()`, which the iterator model
expresses directly through the queue-length and activity checks (an empty
queue on an active session yields the `blocked` outcome).  `randomUUID()`
results enter as explicit parameters of the operations that generate them.
-/

/-- Per-session record, mirroring the `SessionData` interface.  The fields
`toolUseContent`, `toolUseId`, `toolName` are `any`-typed in the source and
are modelled as `Json` (with `Json.null` for `undefined`). -/
structure SessionData where
  queue : List Json
  toolUseContent : Json
  toolUseId : Json
  toolName : Json
  responseHandlers : List String
  promptName : String
  inferenceConfig : Json
  isActive : Bool
  isPromptStartSent : Bool
  isAudioContentStartSent : Bool
  audioContentId : String
  selectedUserId : Option String
  selectedVoiceId : Option String
  agentType : String
deriving DecidableEq

/-- Client-level mutable state.  `sentLog` is a ghost trace recording every
successful push onto any session's outbound queue, in order, so that the
sequencing of enqueued control events stays observable after a session is
deleted from the registry; it corresponds to no source field. -/
structure ClientState where
  activeSessions : List (String × SessionData)
  sessionLastActivity : List (String × Nat)
  sessionCleanupInProgress : List String
  sentLog : List (String × Json)
deriving DecidableEq

/-- Record of one `dispatchEvent(sessionId, eventType, data)` call: the
event-type name and the data handed to the registered handler (the same
pair is also mirrored to the wildcard `any` handler). -/
abbrev Dispatch := String × Json

/-- Model of `updateSessionActivity`, with `Date.now()` passed in as `now`. -/
def updateSessionActivity (st : ClientState) (sid : String) (now : Nat) : ClientState :=
  { st with sessionLastActivity := mset st.sessionLastActivity sid now }

/-- Model of `addEventToSessionQueue`: a no-op unless the session exists and
is active; otherwise refresh the activity stamp, append to the queue and
fire the queue signal (implicit in the model). -/
def addEventToSessionQueue (st : ClientState) (sid : String) (event : Json) (now : Nat) :
    ClientState :=
  match mget st.activeSessions sid with
  | none => st
  | some session =>
    if session.isActive then
      { st with
        sessionLastActivity := mset st.sessionLastActivity sid now,
        activeSessions := mset st.activeSessions sid
          { session with queue := session.queue ++ [event] },
        sentLog := st.sentLog ++ [(sid, event)] }
    else st

/-- Fresh `SessionData` as built inside `createStreamSession`. -/
def initSessionData (promptName : String) (inferenceConfig : Json)
    (audioContentId : String) (agentType : String) : SessionData :=
  { queue := []
    toolUseContent := Json.null
    toolUseId := Json.str ""
    toolName := Json.str ""
    responseHandlers := []
    promptName := promptName
    inferenceConfig := inferenceConfig
    isActive := true
    isPromptStartSent := false
    isAudioContentStartSent := false
    audioContentId := audioContentId
    selectedUserId := none
    selectedVoiceId := none
    agentType := agentType }

/-- Model of `createStreamSession`: throws synchronously on a duplicate id,
otherwise registers a fresh session record.  `promptName` and
`audioContentId` stand for the two `randomUUID()` results. -/
def createStreamSession (st : ClientState) (sessionId : String) (promptName : String)
    (inferenceConfig : Json) (audioContentId : String) (agentType : String) :
    Except String ClientState :=
  if (mget st.activeSessions sessionId).isSome then
    Except.error ("Stream session with ID " ++ sessionId ++ " already exists")
  else
    let sessions := mset st.activeSessions sessionId
      (initSessionData promptName inferenceConfig audioContentId agentType)
    Except.ok { st with activeSessions := sessions }

/-- Model of `registerEventHandler`: throws on a missing session, otherwise
records the handler under its event-type name (`Map.set` overwrites). -/
def registerEventHandler (st : ClientState) (sessionId : String) (eventType : String) :
    Except String ClientState :=
  match mget st.activeSessions sessionId with
  | none => Except.error ("Session " ++ sessionId ++ " not found")
  | some session =>
    let handlers :=
      if eventType ∈ session.responseHandlers then session.responseHandlers
      else session.responseHandlers ++ [eventType]
    let sessions := mset st.activeSessions sessionId { session with responseHandlers := handlers }
    Except.ok { st with activeSessions := sessions }

/-- Model of `setSessionUserId`: silently returns when the session id is not
registered (the source has no `throw` on this path). -/
def setSessionUserId (st : ClientState) (sessionId : String) (userId : String) :
    Except String ClientState :=
  match mget st.activeSessions sessionId with
  | none => Except.ok st
  | some session =>
    let sessions := mset st.activeSessions sessionId { session with selectedUserId := some userId }
    Except.ok { st with activeSessions := sessions }

/-- Model of `setSessionVoiceId`: silently returns when the session id is
not registered. -/
def setSessionVoiceId (st : ClientState) (sessionId : String) (voiceId : String) :
    Except String ClientState :=
  match mget st.activeSessions sessionId with
  | none => Except.ok st
  | some session =>
    let sessions := mset st.activeSessions sessionId { session with selectedVoiceId := some voiceId }
    Except.ok { st with activeSessions := sessions }

/-- Outbound `contentEnd` control event (shared shape of the audio-channel
content end and the tool-result content end). -/
def contentEndEv (promptName contentName : String) : Json :=
  Json.obj [("event", Json.obj [("contentEnd", Json.obj
    [("promptName", Json.str promptName), ("contentName", Json.str contentName)])])]

/-- Outbound `promptEnd` control event. -/
def promptEndEv (promptName : String) : Json :=
  Json.obj [("event", Json.obj [("promptEnd", Json.obj
    [("promptName", Json.str promptName)])])]

/-- Outbound `sessionEnd` control event. -/
def sessionEndEv : Json :=
  Json.obj [("event", Json.obj [("sessionEnd", Json.obj [])])]

/-- Outbound `audioInput` event with base64 payload. -/
def audioInputEv (promptName contentName b64 : String) : Json :=
  Json.obj [("event", Json.obj [("audioInput", Json.obj
    [("promptName", Json.str promptName), ("contentName", Json.str contentName),
     ("content", Json.str b64)])])]

/-- Outbound tool-result `contentStart` event: type TOOL, role TOOL, not
interactive, correlated to the original call through `toolUseId`. -/
def toolContentStartEv (promptName contentId : String) (toolUseId : Json) : Json :=
  Json.obj [("event", Json.obj [("contentStart", Json.obj
    [("promptName", Json.str promptName), ("contentName", Json.str contentId),
     ("interactive", Json.bool false), ("type", Json.str "TOOL"),
     ("role", Json.str "TOOL"),
     ("toolResultInputConfiguration", Json.obj
       [("toolUseId", toolUseId), ("type", Json.str "TEXT"),
        ("textInputConfiguration", Json.obj [("mediaType", Json.str "text/plain")])])])])]

/-- Outbound `toolResult` event carrying the stringified tool outcome. -/
def toolResultEv (promptName contentId content : String) : Json :=
  Json.obj [("event", Json.obj [("toolResult", Json.obj
    [("promptName", Json.str promptName), ("contentName", Json.str contentId),
     ("content", Json.str content)])])]

/-- Model of `streamAudioChunk`: throws on a missing/inactive session or an
empty (falsy) audio content id, otherwise enqueues the base64 audio event. -/
def streamAudioChunk (st : ClientState) (sessionId : String) (audioData : Chunk)
    (now : Nat) : Except String ClientState :=
  match mget st.activeSessions sessionId with
  | none => Except.error ("Invalid session " ++ sessionId ++ " for audio streaming")
  | some session =>
    if ¬session.isActive ∨ session.audioContentId = "" then
      Except.error ("Invalid session " ++ sessionId ++ " for audio streaming")
    else
      Except.ok (addEventToSessionQueue st sessionId
        (audioInputEv session.promptName session.audioContentId (base64Encode audioData)) now)

/-- The source expression `typeof result === 'string' ? result :
JSON.stringify(result)` used for the tool-result content. -/
def stringifyResult (result : Json) : String :=
  match result with
  | Json.str s => s
  | r => jsonStringify r

/-- Model of `sendToolResult`: a no-op unless the session exists and is
active; otherwise enqueues the content-start / toolResult / content-end
triple, all tagged with the freshly generated `contentId`, stringifying the
result unless it is already a string. -/
def sendToolResult (st : ClientState) (sessionId : String) (toolUseId : Json)
    (result : Json) (contentId : String) (now : Nat) : ClientState :=
  match mget st.activeSessions sessionId with
  | none => st
  | some session =>
    if ¬session.isActive then st
    else
      let resultContent := stringifyResult result
      let st1 := addEventToSessionQueue st sessionId
        (toolContentStartEv session.promptName contentId toolUseId) now
      let st2 := addEventToSessionQueue st1 sessionId
        (toolResultEv session.promptName contentId resultContent) now
      addEventToSessionQueue st2 sessionId
        (contentEndEv session.promptName contentId) now

/-- Model of `sendContentEnd`: guarded by `isAudioContentStartSent`; the
trailing fixed 500 ms wait has no state effect. -/
def sendContentEnd (st : ClientState) (sessionId : String) (now : Nat) : ClientState :=
  match mget st.activeSessions sessionId with
  | none => st
  | some session =>
    if ¬session.isAudioContentStartSent then st
    else addEventToSessionQueue st sessionId
      (contentEndEv session.promptName session.audioContentId) now

/-- Model of `sendPromptEnd`: guarded by `isPromptStartSent`. -/
def sendPromptEnd (st : ClientState) (sessionId : String) (now : Nat) : ClientState :=
  match mget st.activeSessions sessionId with
  | none => st
  | some session =>
    if ¬session.isPromptStartSent then st
    else addEventToSessionQueue st sessionId (promptEndEv session.promptName) now

/-- Model of `sendSessionEnd`: enqueues the session-end event while the
session is still active, then (after the fixed wait) marks it inactive,
fires the close signal and deletes it from the registry and the activity
map. -/
def sendSessionEnd (st : ClientState) (sessionId : String) (now : Nat) : ClientState :=
  match mget st.activeSessions sessionId with
  | none => st
  | some _ =>
    let st1 := addEventToSessionQueue st sessionId sessionEndEv now
    { st1 with
      activeSessions := mdel st1.activeSessions sessionId,
      sessionLastActivity := mdel st1.sessionLastActivity sessionId }

/-- Model of `closeSession`: skipped entirely while a cleanup for the same
id is in progress; otherwise the id is tracked for the duration of the
three-step graceful sequence and always released afterwards (`finally`).
The sends never throw in the model (they throw nowhere in the source), so
the `catch` branch is unreachable. -/
def closeSession (st : ClientState) (sessionId : String) (now : Nat) : ClientState :=
  if sessionId ∈ st.sessionCleanupInProgress then st
  else
    let st0 := { st with sessionCleanupInProgress := sessionId :: st.sessionCleanupInProgress }
    let st1 := sendContentEnd st0 sessionId now
    let st2 := sendPromptEnd st1 sessionId now
    let st3 := sendSessionEnd st2 sessionId now
    { st3 with sessionCleanupInProgress := st3.sessionCleanupInProgress.erase sessionId }

/-- Model of `forceCloseSession`: skipped while a cleanup is in progress or
when the id is not registered; otherwise immediately marks the session
inactive, fires its close signal, and removes it from the registry and the
activity map, releasing the tracking id in the `finally`. -/
def forceCloseSession (st : ClientState) (sessionId : String) : ClientState :=
  if sessionId ∈ st.sessionCleanupInProgress ∨ (mget st.activeSessions sessionId).isNone then st
  else
    let st0 := { st with sessionCleanupInProgress := sessionId :: st.sessionCleanupInProgress }
    let st1 := { st0 with
      activeSessions := mdel st0.activeSessions sessionId,
      sessionLastActivity := mdel st0.sessionLastActivity sessionId }
    { st1 with sessionCleanupInProgress := st1.sessionCleanupInProgress.erase sessionId }

/-- ASCII lower-casing, modelling `String.prototype.toLowerCase` by mapping
`Char.toLower` over the characters (kernel-reducible, unlike the
well-founded-recursive library `String.toLower`). -/
def strToLower (s : String) : String :=
  String.mk (s.data.map Char.toLower)

/-- Result shape of `parseToolUseContent`: the `query` / `maxResults`
fields as read off the payload, `none` standing for JavaScript
`undefined`. -/
structure QueryParams where
  query : Option Json
  maxResults : Option Json
deriving DecidableEq

/-- Model of `parseToolUseContent`.  The four guarded cases are tried in
source order; `none` is the explicit `return null` and also the value of
the surrounding `catch` both when `JSON.parse` throws and when it returns
`null`, in which case the unguarded access `parsedContent.query` (cases 1
and 3) throws a TypeError; on every other parsed value property access
merely yields `undefined`.  The function itself therefore never raises. -/
def parseToolUseContent (toolUseContent : Json) : Option QueryParams :=
  -- Case 1: model returns a JSON string at content
  match jget toolUseContent "content" with
  | some (Json.str s) =>
    (match jsonParse s with
     | none => none
     | some Json.null => none
     | some parsedContent =>
       some { query := jget parsedContent "query",
              maxResults := jget parsedContent "maxResults" })
  | _ =>
    -- Case 2: model returns input.json object
    let inputJson := jchain (jget toolUseContent "input") "json"
    if truthyO inputJson ∧ isObjectTypeO inputJson then
      let json := inputJson.getD Json.null
      some { query := jget json "query", maxResults := jget json "maxResults" }
    else
      -- Case 3: model returns input as a string JSON
      match jget toolUseContent "input" with
      | some (Json.str s) =>
        (match jsonParse s with
         | none => none
         | some Json.null => none
         | some parsed =>
           some { query := jget parsed "query", maxResults := jget parsed "maxResults" })
      | _ =>
        -- Case 4: already an object with a query field
        if truthy toolUseContent ∧ isObjectType toolUseContent ∧
            hasKey toolUseContent "query" then
          some { query := jget toolUseContent "query",
                 maxResults := jget toolUseContent "maxResults" }
        else none

/-- Model of `processToolUse`.  The external knowledge-base retrieval
(`queryKnowledgeBase`) is the out-of-scope collaborator: it catches every
retrieval failure internally and always returns a structured object, so its
return value enters the model as the parameter `kbResult`.  The only throws
are the unsupported-tool error, the undefined-parse error, and the
`TypeError` of calling `toLowerCase` on a non-string tool name. -/
def processToolUse (toolName : Json) (toolUseContent : Json) (kbResult : Json) :
    Except String Json :=
  match toolName with
  | Json.str s =>
    let tool := strToLower s
    if tool = "retrieve_kb_docs" then
      match parseToolUseContent toolUseContent with
      | none => Except.error "parsedContent is undefined"
      | some _ => Except.ok kbResult
    else Except.error ("Tool " ++ tool ++ " not supported")
  | _ => Except.error "TypeError: toolName.toLowerCase is not a function"

/-- Model of the body of `processResponseStream`'s loop for one decoded and
JSON-parsed inbound envelope `j`.  Returns the updated client state and the
trace of `dispatchEvent` calls made for this envelope.  `contentId` stands
for the `randomUUID()` drawn inside `sendToolResult`, `kbResult` for the
retrieval collaborator's answer.  A throw escaping `processToolUse` is
caught by the inner `catch` of the loop (whose log message labels it a
parse error), so it only cuts the branch short: everything already
dispatched stays dispatched and the loop continues with the session
untouched. -/
def processJsonEvent (st : ClientState) (sessionId : String) (now : Nat)
    (contentId : String) (kbResult : Json) (j : Json) : ClientState × List Dispatch :=
  match mget st.activeSessions sessionId with
  | none => (st, [])
  | some session =>
    if ¬session.isActive then (st, [])
    else
      let st1 := updateSessionActivity st sessionId now
      let oev := jget j "event"
      if truthyO (jchain oev "contentStart") then
        (st1, [("contentStart", (jchain oev "contentStart").getD Json.null)])
      else if truthyO (jchain oev "textOutput") then
        (st1, [("textOutput", (jchain oev "textOutput").getD Json.null)])
      else if truthyO (jchain oev "audioOutput") then
        (st1, [("audioOutput", (jchain oev "audioOutput").getD Json.null)])
      else if truthyO (jchain oev "toolUse") then
        let toolUse := (jchain oev "toolUse").getD Json.null
        let session' := { session with
          toolUseContent := toolUse,
          toolUseId := jgetD toolUse "toolUseId",
          toolName := jgetD toolUse "toolName" }
        ({ st1 with activeSessions := mset st1.activeSessions sessionId session' },
         [("toolUse", toolUse)])
      else if truthyO (jchain oev "contentEnd") ∧
          jchain (jchain oev "contentEnd") "type" = some (Json.str "TOOL") then
        let toolEndData := Json.obj
          [("toolUseContent", session.toolUseContent),
           ("toolUseId", session.toolUseId), ("toolName", session.toolName)]
        match processToolUse session.toolName session.toolUseContent kbResult with
        | Except.error _ => (st1, [("toolEnd", toolEndData)])
        | Except.ok toolResult =>
          let st2 := sendToolResult st1 sessionId session.toolUseId toolResult contentId now
          (st2, [("toolEnd", toolEndData),
                 ("toolResult", Json.obj
                   [("toolUseId", session.toolUseId), ("result", toolResult)])])
      else if truthyO (jchain oev "contentEnd") then
        (st1, [("contentEnd", (jchain oev "contentEnd").getD Json.null)])
      else
        let eventKeys := jkeys ((jget j "event").getD (Json.obj []))
        match eventKeys with
        | k :: _ => (st1, [(k, (jget j "event").getD Json.null)])
        | [] => if jkeys j ≠ [] then (st1, [("unknown", j)]) else (st1, [])

/-- Model of one raw inbound chunk: UTF-8 decode then `JSON.parse`; a parse
failure is logged and skipped (the activity stamp was already refreshed). -/
def processTextChunk (st : ClientState) (sessionId : String) (now : Nat)
    (contentId : String) (kbResult : Json) (text : String) : ClientState × List Dispatch :=
  match mget st.activeSessions sessionId with
  | none => (st, [])
  | some session =>
    if ¬session.isActive then (st, [])
    else
      match jsonParse text with
      | none => (updateSessionActivity st sessionId now, [])
      | some _ => processJsonEvent st sessionId now contentId kbResult
          ((jsonParse text).getD Json.null)

/-- Sequential processing of a list of inbound envelopes, concatenating the
dispatch traces. -/
def processJsonEvents (st : ClientState) (sessionId : String) (now : Nat)
    (contentId : String) (kbResult : Json) : List Json → ClientState × List Dispatch
  | [] => (st, [])
  | j :: rest =>
    let r := processJsonEvent st sessionId now contentId kbResult j
    let r2 := processJsonEvents r.1 sessionId now contentId kbResult rest
    (r2.1, r.2 ++ r2.2)

/-- Inbound envelope wrapping one `toolUse` payload. -/
def toolUseEnv (p : Json) : Json :=
  Json.obj [("event", Json.obj [("toolUse", p)])]

/-- Inbound envelope for `contentEnd` of type TOOL, which triggers tool
resolution. -/
def contentEndToolEnv : Json :=
  Json.obj [("event", Json.obj [("contentEnd", Json.obj [("type", Json.str "TOOL")])])]

/-- Outcome of one `next()` call on the session's async iterator: the
stream terminates, or the call would suspend on the queue/close signals, or
it yields one serialized event as a UTF-8 chunk. -/
inductive IterOutcome where
  | done : IterOutcome
  | blocked : IterOutcome
  | chunk : List Nat → IterOutcome
deriving DecidableEq

/-- Model of the iterator's `next()` from `createSessionAsyncIterable`: done
when the session is inactive or deregistered; suspended when the queue is
empty (woken by the queue or close signal, after which the same checks
rerun); otherwise it shifts one event off the queue and yields its JSON
serialization encoded as UTF-8 bytes. -/
def sessionIterNext (st : ClientState) (sessionId : String) : IterOutcome × ClientState :=
  match mget st.activeSessions sessionId with
  | none => (IterOutcome.done, st)
  | some session =>
    if ¬session.isActive then (IterOutcome.done, st)
    else
      match session.queue with
      | [] => (IterOutcome.blocked, st)
      | e :: rest =>
        let sessions := mset st.activeSessions sessionId { session with queue := rest }
        (IterOutcome.chunk (utf8Encode (jsonStringify e)), { st with activeSessions := sessions })

/-- Marking of the captured session object as inactive, shared by the
iterator's `return()` and `throw()`.  When the session has already been
deleted from the registry the captured object is unreachable to every other
model operation, so the write has no further observable effect. -/
def sessionSetInactive (st : ClientState) (sessionId : String) : ClientState :=
  match mget st.activeSessions sessionId with
  | none => st
  | some session =>
    let sessions := mset st.activeSessions sessionId { session with isActive := false }
    { st with activeSessions := sessions }

/-- Model of the iterator's `return()`: marks the session inactive and
reports done; it raises nothing. -/
def sessionIterReturn (st : ClientState) (sessionId : String) : ClientState × IterOutcome :=
  (sessionSetInactive st sessionId, IterOutcome.done)

/-- Model of the iterator's `throw(error)`: marks the session inactive and
re-raises exactly the error it was handed. -/
def sessionIterThrow (st : ClientState) (sessionId : String) (error : String) :
    ClientState × Except String IterOutcome :=
  (sessionSetInactive st sessionId, Except.error error)

/-!
State model of the `StreamSession` wrapper object.  Its `isActive` flag is
distinct from the `SessionData.isActive` flag held by the client.
-/

/-- Mutable state of one `StreamSession` instance. -/
structure StreamSessionState where
  audioBufferQueue : List Chunk
  isProcessingAudio : Bool
  isActive : Bool
deriving DecidableEq

def maxQueueSize : Nat := 200

/-- The audio-buffer mutation performed by `StreamSession.streamAudio`:
when the queue already holds `maxQueueSize` chunks the single oldest chunk
is shifted off before the new chunk is pushed. -/
def audioQueuePush (q : List Chunk) (audioData : Chunk) : List Chunk :=
  (if maxQueueSize ≤ q.length then q.tail else q) ++ [audioData]

/-- Drain loop body of `processAudioQueue`: up to `fuel` (= 5) chunks are
shifted and forwarded through `streamAudioChunk` while the wrapper stays
active; a throw from `streamAudioChunk` stops the loop and propagates (as
the rejection of the un-awaited promise). -/
def drainBatch : Nat → StreamSessionState → ClientState → String → Nat →
    StreamSessionState × ClientState × Option String
  | 0, ss, cs, _, _ => (ss, cs, none)
  | Nat.succ fuel, ss, cs, sessionId, now =>
    if ¬ss.isActive then (ss, cs, none)
    else
      match ss.audioBufferQueue with
      | [] => (ss, cs, none)
      | audioChunk :: rest =>
        let ss1 := { ss with audioBufferQueue := rest }
        match streamAudioChunk cs sessionId audioChunk now with
        | Except.error e => (ss1, cs, some e)
        | Except.ok cs' => drainBatch fuel ss1 cs' sessionId now

/-- Model of one invocation of `processAudioQueue`: re-entrancy guard, then
a batch of at most 5 chunks, then the `finally` clearing the guard; the
final component tells whether `setTimeout` re-scheduled another
invocation. -/
def processAudioQueue (ss : StreamSessionState) (cs : ClientState) (sessionId : String)
    (now : Nat) : StreamSessionState × ClientState × Option String × Bool :=
  if ss.isProcessingAudio ∨ ss.audioBufferQueue.isEmpty ∨ ¬ss.isActive then
    (ss, cs, none, false)
  else
    let ss0 := { ss with isProcessingAudio := true }
    let r := drainBatch 5 ss0 cs sessionId now
    let ss2 := { r.1 with isProcessingAudio := false }
    (ss2, r.2.1, r.2.2, ¬ss2.audioBufferQueue.isEmpty ∧ ss2.isActive)

namespace StreamSession

/-- Model of `StreamSession.streamAudio`: the bounded push happens
unconditionally (there is no activity check before it), then
`processAudioQueue` is invoked. -/
def streamAudio (ss : StreamSessionState) (cs : ClientState) (sessionId : String)
    (now : Nat) (audioData : Chunk) :
    StreamSessionState × ClientState × Option String × Bool :=
  let ssq := { ss with audioBufferQueue := audioQueuePush ss.audioBufferQueue audioData }
  processAudioQueue ssq cs sessionId now

/-- Model of `StreamSession.endAudioContent`: a silent no-op when the
wrapper is inactive. -/
def endAudioContent (ss : StreamSessionState) (cs : ClientState) (sessionId : String)
    (now : Nat) : StreamSessionState × ClientState :=
  if ¬ss.isActive then (ss, cs) else (ss, sendContentEnd cs sessionId now)

/-- Model of `StreamSession.endPrompt`: a silent no-op when the wrapper is
inactive. -/
def endPrompt (ss : StreamSessionState) (cs : ClientState) (sessionId : String)
    (now : Nat) : StreamSessionState × ClientState :=
  if ¬ss.isActive then (ss, cs) else (ss, sendPromptEnd cs sessionId now)

/-- Model of `StreamSession.close`: a silent no-op when already inactive;
otherwise marks the wrapper inactive, clears the pending audio buffer and
delegates to the client's `sendSessionEnd`. -/
def close (ss : StreamSessionState) (cs : ClientState) (sessionId : String)
    (now : Nat) : StreamSessionState × ClientState :=
  if ¬ss.isActive then (ss, cs)
  else ({ ss with isActive := false, audioBufferQueue := [] },
        sendSessionEnd cs sessionId now)

end StreamSession

/-- Sequential pushes through `addEventToSessionQueue`. -/
def pushEvents (st : ClientState) (sessionId : String) (events : List Json)
    (now : Nat) : ClientState :=
  events.foldl (fun s e => addEventToSessionQueue s sessionId e now) st

/-- Sequence of `n` `next()` calls on the session's async iterator,
collecting the yielded chunks; stops early if the iterator reports done or
would block. -/
def pullEvents : Nat → ClientState → String → List (List Nat) × ClientState
  | 0, st, _ => ([], st)
  | Nat.succ n, st, sessionId =>
    match sessionIterNext st sessionId with
    | (IterOutcome.chunk bs, st') =>
      let r := pullEvents n st' sessionId
      (bs :: r.1, r.2)
    | (outcome, st') =>
      match outcome with
      | _ => ([], st')

/-- Concrete one-session fixture shared by several witnesses below. -/
def wSd : SessionData := initSessionData "pn" Json.null "ac" "retrieval"

/-- Client state holding just the fixture session under id `"s1"`. -/
def wSt : ClientState :=
  { activeSessions := [("s1", wSd)], sessionLastActivity := [],
    sessionCleanupInProgress := [], sentLog := [] }

/-- Inbound `toolUse` payload naming a tool the bridge does not support. -/
def unsupportedToolUse : Json :=
  Json.obj [("toolUseId", Json.str "t1"), ("toolName", Json.str "unknown_tool")]

/-- Inactive `StreamSession` wrapper fixture. -/
def inactiveSS : StreamSessionState :=
  { audioBufferQueue := [], isProcessingAudio := false, isActive := false }

/-- Client state with no sessions at all. -/
def emptyClientState : ClientState :=
  { activeSessions := [], sessionLastActivity := [],
    sessionCleanupInProgress := [], sentLog := [] }

/-- Fixture session with the prompt-start and audio-start flags set. -/
def wSdFlags : SessionData :=
  { wSd with isPromptStartSent := true, isAudioContentStartSent := true }

/-- Client state holding the flagged fixture session under id `"s1"`. -/
def wStFlags : ClientState :=
  { activeSessions := [("s1", wSdFlags)], sessionLastActivity := [],
    sessionCleanupInProgress := [], sentLog := [] }

/-- Concrete JSON text of a tool query payload. -/
def kbQueryStr : String := "\x7b\"query\":\"a\",\"maxResults\":3\x7d"

/-- The object the concrete payload text parses to. -/
def kbQueryObj : List (String × Json) := [("query", Json.str "a"), ("maxResults", Json.num 3)]

/-- Concrete `toolUse` payload naming the supported retrieval tool. -/
def wToolUse : Json :=
  Json.obj [("toolUseId", Json.str "t1"), ("toolName", Json.str "retrieve_kb_docs"),
    ("query", Json.str "refund")]

/-!
Verified properties.  Every theorem below is stated over the definitions
above, which embed `src/unnamed/part_013`.
-/

theorem mget_mset_self {α : Type} (m : List (String × α)) (k : String) (v : α) :
    mget (mset m k v) k = some v := by
  induction m with
  | nil => simp [mget, mset]
  | cons p ps ih =>
    by_cases h : p.1 = k
    · simp [mget, mset, h]
    · simp [mget, mset, h, ih]

theorem mget_mset_ne {α : Type} (m : List (String × α)) (k k' : String) (v : α)
    (h : k ≠ k') : mget (mset m k v) k' = mget m k' := by
  induction m with
  | nil => simp [mget, mset, h]
  | cons p ps ih =>
    by_cases hp : p.1 = k
    · simp [mget, mset, hp, h]
    · simp only [mset, hp, if_false, mget]
      by_cases hp' : p.1 = k'
      · simp [hp']
      · simp [hp', ih]

theorem mget_eq_none_of_keys {α : Type} (m : List (String × α)) (k : String)
    (h : ∀ p ∈ m, p.1 ≠ k) : mget m k = none := by
  induction m with
  | nil => rfl
  | cons p ps ih =>
    simp only [mget, h p (List.mem_cons_self p ps), if_false]
    exact ih (fun q hq => h q (List.mem_cons_of_mem p hq))

theorem mget_mdel_self {α : Type} (m : List (String × α)) (k : String)
    (hnodup : (m.map Prod.fst).Nodup) : mget (mdel m k) k = none := by
  induction m with
  | nil => simp [mget, mdel]
  | cons p ps ih =>
    simp only [List.map_cons, List.nodup_cons] at hnodup
    by_cases h : p.1 = k
    · subst h
      simp only [mdel, if_pos rfl]
      refine mget_eq_none_of_keys ps p.1 (fun q hq he => hnodup.1 ?_)
      exact he ▸ List.mem_map_of_mem Prod.fst hq
    · simp [mdel, h, mget, ih hnodup.2]


theorem audioQueuePush_length (q : List Chunk) (c : Chunk) (h : q.length ≤ maxQueueSize) :
    (audioQueuePush q c).length = min (q.length + 1) maxQueueSize := by
  have hmpos : 0 < maxQueueSize := by decide
  unfold audioQueuePush
  by_cases hge : maxQueueSize ≤ q.length
  · have hq : q.length = maxQueueSize := le_antisymm h hge
    simp only [hge, if_true, List.length_append, List.length_tail, List.length_singleton]
    omega
  · simp only [hge, if_false, List.length_append, List.length_singleton]
    omega

theorem audioQueuePush_eq_drop (q : List Chunk) (c : Chunk) (h : q.length ≤ maxQueueSize) :
    audioQueuePush q c = (q ++ [c]).drop (q.length + 1 - maxQueueSize) := by
  unfold audioQueuePush
  by_cases hge : maxQueueSize ≤ q.length
  · have hq : q.length = maxQueueSize := le_antisymm h hge
    have h1 : q.length + 1 - maxQueueSize = 1 := by omega
    have hle : 1 ≤ q.length := by
      rw [hq]; simp [maxQueueSize]
    rw [h1, List.drop_append_of_le_length hle, List.drop_one]
    simp [hge]
  · have h0 : q.length + 1 - maxQueueSize = 0 := by omega
    simp [hge, h0]

theorem foldl_audioQueuePush (cs : List Chunk) : ∀ (q : List Chunk),
    q.length ≤ maxQueueSize →
    List.foldl audioQueuePush q cs = (q ++ cs).drop (q.length + cs.length - maxQueueSize) := by
  induction cs with
  | nil =>
    intro q h
    simp [Nat.sub_eq_zero_of_le h]
  | cons c cs ih =>
    intro q h
    have hmpos : 0 < maxQueueSize := by decide
    rw [List.foldl_cons, ih (audioQueuePush q c) (by rw [audioQueuePush_length q c h]; omega),
      audioQueuePush_eq_drop q c h]
    have hd : q.length + 1 - maxQueueSize ≤ (q ++ [c]).length := by
      simp only [List.length_append, List.length_singleton]
      omega
    rw [← List.drop_append_of_le_length hd, List.drop_drop]
    have harr : (q ++ [c]) ++ cs = q ++ c :: cs := by simp
    rw [harr]
    refine congrFun (congrArg List.drop ?_) _
    simp only [List.length_drop, List.length_append, List.length_singleton, List.length_cons,
      List.length_nil]
    omega

/-- C2: for every session, after any sequence of `streamAudio` calls with no
draining, the audio buffer queue holds at most 200 chunks; when more than
200 chunks have been pushed, exactly 200 are retained and they are precisely
the 200 most recently pushed chunks (the drop-oldest push is
`audioQueuePush`, the buffer mutation of `StreamSession.streamAudio`; with
no drain running, a sequence of calls folds it over the buffer). -/
theorem bounded_audio_buffer_drop_oldest (cs : List Chunk) :
    (List.foldl audioQueuePush [] cs).length = min cs.length maxQueueSize ∧
    List.foldl audioQueuePush [] cs = cs.drop (cs.length - maxQueueSize) := by
  have h := foldl_audioQueuePush cs [] (by simp)
  simp only [List.nil_append, List.length_nil, Nat.zero_add] at h
  refine ⟨?_, h⟩
  rw [h, List.length_drop]
  omega

theorem addEventToSessionQueue_mget (st : ClientState) (sessionId : String)
    (sd : SessionData) (e : Json) (now : Nat)
    (h : mget st.activeSessions sessionId = some sd) (hact : sd.isActive = true) :
    mget (addEventToSessionQueue st sessionId e now).activeSessions sessionId =
      some { sd with queue := sd.queue ++ [e] } := by
  unfold addEventToSessionQueue
  rw [h]
  simp [hact, mget_mset_self]

theorem pushEvents_mget (sessionId : String) (now : Nat) (events : List Json) :
    ∀ (st : ClientState) (sd : SessionData),
    mget st.activeSessions sessionId = some sd → sd.isActive = true →
    mget (pushEvents st sessionId events now).activeSessions sessionId =
      some { sd with queue := sd.queue ++ events } := by
  induction events with
  | nil =>
    intro st sd h _
    simpa [pushEvents] using h
  | cons e es ih =>
    intro st sd h hact
    have h1 := addEventToSessionQueue_mget st sessionId sd e now h hact
    have h2 := ih (addEventToSessionQueue st sessionId e now)
      { sd with queue := sd.queue ++ [e] } h1 hact
    simpa [pushEvents, List.append_assoc] using h2

theorem pullEvents_of_queue (sessionId : String) (q : List Json) :
    ∀ (st : ClientState) (sd : SessionData),
    mget st.activeSessions sessionId = some sd → sd.isActive = true → sd.queue = q →
    (pullEvents q.length st sessionId).1 =
      q.map (fun e => utf8Encode (jsonStringify e)) := by
  induction q with
  | nil => intro st sd _ _ _; simp [pullEvents]
  | cons e rest ih =>
    intro st sd h hact hq
    have hnext : sessionIterNext st sessionId =
        (IterOutcome.chunk (utf8Encode (jsonStringify e)),
         { st with activeSessions := (mset st.activeSessions sessionId { sd with queue := rest }) }) := by
      unfold sessionIterNext
      rw [h]
      simp [hact, hq]
    have h' : mget (mset st.activeSessions sessionId { sd with queue := rest }) sessionId =
        some { sd with queue := rest } := mget_mset_self _ _ _
    have hih := ih { st with activeSessions := (mset st.activeSessions sessionId { sd with queue := rest }) } { sd with queue := rest } h' hact rfl
    simp only [List.length_cons, pullEvents, hnext]
    simpa using hih

/-- C1: for every session and every sequence of N events pushed onto that
session's outbound queue while the session is active, followed by N pulls
via the session's async iterator, the pulled chunks are exactly the pushed
events, in the same order, each serialized once as a UTF-8 JSON chunk; no
event is delivered twice or skipped. -/
theorem fifo_push_pull_roundtrip (st : ClientState) (sessionId : String)
    (sd : SessionData) (events : List Json) (now : Nat)
    (h : mget st.activeSessions sessionId = some sd)
    (hact : sd.isActive = true) (hq : sd.queue = []) :
    (pullEvents events.length (pushEvents st sessionId events now) sessionId).1 =
      events.map (fun e => utf8Encode (jsonStringify e)) := by
  have hp := pushEvents_mget sessionId now events st sd h hact
  rw [hq] at hp
  have hp' : mget (pushEvents st sessionId events now).activeSessions sessionId =
      some { sd with queue := events } := by simpa using hp
  exact pullEvents_of_queue sessionId events _ { sd with queue := events } hp' hact rfl

theorem fifo_push_pull_roundtrip_witness :
    (pullEvents 2 (pushEvents wSt "s1" [Json.num 1, Json.str "x"] 0) "s1").1 =
      [utf8Encode (jsonStringify (Json.num 1)), utf8Encode (jsonStringify (Json.str "x"))] :=
  fifo_push_pull_roundtrip wSt "s1" wSd [Json.num 1, Json.str "x"] 0
    (by decide) (by decide) (by decide)

/-- C4: evaluation of the model at the failing input.  `processToolUse`
does fail fast with the thrown unsupported-tool error (last conjunct), but
when the inbound `toolUse{toolName:"unknown_tool"}` + `contentEnd{type:TOOL}`
pair is processed, that throw is caught by the response loop's inner
JSON-parse catch: the session stays registered and active, no `error`
event is dispatched (only `toolUse` and `toolEnd` are), and nothing is
enqueued — contradicting the claimed error dispatch and forced close. -/
theorem unsupported_tool_error_swallowed :
    (mget (processJsonEvent (processJsonEvent wSt "s1" 0 "cid" Json.null
        (toolUseEnv unsupportedToolUse)).1 "s1" 0 "cid" Json.null contentEndToolEnv).1.activeSessions
      "s1").map SessionData.isActive = some true ∧
    ((processJsonEvent wSt "s1" 0 "cid" Json.null (toolUseEnv unsupportedToolUse)).2 ++
      (processJsonEvent (processJsonEvent wSt "s1" 0 "cid" Json.null
        (toolUseEnv unsupportedToolUse)).1 "s1" 0 "cid" Json.null contentEndToolEnv).2).map
      Prod.fst = ["toolUse", "toolEnd"] ∧
    (mget (processJsonEvent (processJsonEvent wSt "s1" 0 "cid" Json.null
        (toolUseEnv unsupportedToolUse)).1 "s1" 0 "cid" Json.null contentEndToolEnv).1.activeSessions
      "s1").map SessionData.queue = some [] ∧
    processToolUse (Json.str "unknown_tool") Json.null Json.null =
      Except.error "Tool unknown_tool not supported" := by
  decide

/-- C5 (amended): on a session already marked inactive, `endAudioContent`,
`endPrompt` and `close` are complete no-ops and nothing throws;
`streamAudio` also throws nothing and leaves the client state (hence the
outbound queue) untouched, but it does perform the bounded push onto the
local audio buffer queue, because the source checks activity only inside
`processAudioQueue`, after the push. -/
theorem inactive_session_operations (ss : StreamSessionState) (cs : ClientState)
    (sessionId : String) (now : Nat) (audioData : Chunk)
    (hin : ss.isActive = false) :
    StreamSession.streamAudio ss cs sessionId now audioData =
      ({ ss with audioBufferQueue := audioQueuePush ss.audioBufferQueue audioData },
        cs, none, false) ∧
    StreamSession.endAudioContent ss cs sessionId now = (ss, cs) ∧
    StreamSession.endPrompt ss cs sessionId now = (ss, cs) ∧
    StreamSession.close ss cs sessionId now = (ss, cs) := by
  refine ⟨?_, ?_, ?_, ?_⟩ <;>
    simp [StreamSession.streamAudio, StreamSession.endAudioContent, StreamSession.endPrompt,
      StreamSession.close, processAudioQueue, hin]

/-- C5 counterexample: the claim that no queue is mutated fails —
`streamAudio` on an inactive session changes the audio buffer queue. -/
theorem inactive_streamAudio_mutates_queue :
    (StreamSession.streamAudio inactiveSS wSt "s1" 0 [1]).1.audioBufferQueue ≠
      inactiveSS.audioBufferQueue := by
  decide

theorem inactive_session_operations_witness :
    StreamSession.streamAudio inactiveSS wSt "s1" 0 [1] =
      ({ inactiveSS with audioBufferQueue := audioQueuePush inactiveSS.audioBufferQueue [1] },
        wSt, none, false) ∧
    StreamSession.endAudioContent inactiveSS wSt "s1" 0 = (inactiveSS, wSt) ∧
    StreamSession.endPrompt inactiveSS wSt "s1" 0 = (inactiveSS, wSt) ∧
    StreamSession.close inactiveSS wSt "s1" 0 = (inactiveSS, wSt) :=
  inactive_session_operations inactiveSS wSt "s1" 0 [1] (by decide)

/-- C8: `return()` marks the session inactive, reports done and raises
nothing; `throw(e)` marks the session inactive and re-raises exactly the
error it was handed (no further error); after either call, `next()`
reports done. -/
theorem iterator_return_throw_terminate (st : ClientState) (sessionId : String)
    (sd : SessionData) (error : String)
    (h : mget st.activeSessions sessionId = some sd) :
    (sessionIterReturn st sessionId).2 = IterOutcome.done ∧
    (sessionIterNext (sessionIterReturn st sessionId).1 sessionId).1 = IterOutcome.done ∧
    (sessionIterThrow st sessionId error).2 = Except.error error ∧
    (sessionIterNext (sessionIterThrow st sessionId error).1 sessionId).1 = IterOutcome.done ∧
    (mget (sessionIterReturn st sessionId).1.activeSessions sessionId).map
      SessionData.isActive = some false := by
  have hset : mget (sessionSetInactive st sessionId).activeSessions sessionId =
      some { sd with isActive := false } := by
    unfold sessionSetInactive
    rw [h]
    simp [mget_mset_self]
  refine ⟨rfl, ?_, rfl, ?_, ?_⟩
  · unfold sessionIterNext sessionIterReturn
    simp [hset]
  · unfold sessionIterNext sessionIterThrow
    simp [hset]
  · simp [sessionIterReturn, hset]

theorem iterator_return_throw_terminate_witness :
    (sessionIterReturn wSt "s1").2 = IterOutcome.done ∧
    (sessionIterNext (sessionIterReturn wSt "s1").1 "s1").1 = IterOutcome.done ∧
    (sessionIterThrow wSt "s1" "boom").2 = Except.error "boom" ∧
    (sessionIterNext (sessionIterThrow wSt "s1" "boom").1 "s1").1 = IterOutcome.done ∧
    (mget (sessionIterReturn wSt "s1").1.activeSessions "s1").map
      SessionData.isActive = some false :=
  iterator_return_throw_terminate wSt "s1" wSd "boom" (by decide)

/-- C9 (amended): `registerEventHandler` throws synchronously on a missing
session id and `createStreamSession` throws synchronously on a duplicate
id, but the per-session override setters `setSessionUserId` and
`setSessionVoiceId` silently no-op on a missing id instead of throwing. -/
theorem session_lookup_failures (st st2 : ClientState) (sessionId sid2 : String)
    (eventType userId voiceId promptName audioContentId agentType : String) (icfg : Json)
    (hmiss : mget st.activeSessions sessionId = none)
    (hdup : (mget st2.activeSessions sid2).isSome = true) :
    registerEventHandler st sessionId eventType =
      Except.error ("Session " ++ sessionId ++ " not found") ∧
    createStreamSession st2 sid2 promptName icfg audioContentId agentType =
      Except.error ("Stream session with ID " ++ sid2 ++ " already exists") ∧
    setSessionUserId st sessionId userId = Except.ok st ∧
    setSessionVoiceId st sessionId voiceId = Except.ok st := by
  refine ⟨?_, ?_, ?_, ?_⟩ <;>
    simp [registerEventHandler, createStreamSession, setSessionUserId, setSessionVoiceId,
      hmiss, hdup]

/-- C9 counterexample: setting a per-session override for an id absent from
the registry does not throw — it returns successfully with the state
unchanged, refuting the claim that such operations throw synchronously. -/
theorem set_overrides_missing_session_silent :
    setSessionUserId emptyClientState "s1" "u1" = Except.ok emptyClientState ∧
    setSessionVoiceId emptyClientState "s1" "v1" = Except.ok emptyClientState := by
  decide

theorem session_lookup_failures_witness :
    registerEventHandler emptyClientState "sX" "textOutput" =
      Except.error ("Session " ++ "sX" ++ " not found") ∧
    createStreamSession wSt "s1" "pn2" Json.null "ac2" "booking" =
      Except.error ("Stream session with ID " ++ "s1" ++ " already exists") ∧
    setSessionUserId emptyClientState "sX" "u" = Except.ok emptyClientState ∧
    setSessionVoiceId emptyClientState "sX" "v" = Except.ok emptyClientState :=
  session_lookup_failures emptyClientState wSt "sX" "s1" "textOutput" "u" "v" "pn2" "ac2"
    "booking" Json.null (by decide) (by decide)

theorem addEventToSessionQueue_cleanup (st : ClientState) (sessionId : String)
    (e : Json) (now : Nat) :
    (addEventToSessionQueue st sessionId e now).sessionCleanupInProgress =
      st.sessionCleanupInProgress := by
  unfold addEventToSessionQueue
  cases hm : mget st.activeSessions sessionId with
  | none => simp
  | some sd => by_cases hact : sd.isActive <;> simp [hact]

theorem sendContentEnd_cleanup (st : ClientState) (sessionId : String) (now : Nat) :
    (sendContentEnd st sessionId now).sessionCleanupInProgress =
      st.sessionCleanupInProgress := by
  unfold sendContentEnd
  cases hm : mget st.activeSessions sessionId with
  | none => simp
  | some sd =>
    by_cases hs : sd.isAudioContentStartSent <;>
      simp [hs, addEventToSessionQueue_cleanup]

theorem sendPromptEnd_cleanup (st : ClientState) (sessionId : String) (now : Nat) :
    (sendPromptEnd st sessionId now).sessionCleanupInProgress =
      st.sessionCleanupInProgress := by
  unfold sendPromptEnd
  cases hm : mget st.activeSessions sessionId with
  | none => simp
  | some sd =>
    by_cases hs : sd.isPromptStartSent <;>
      simp [hs, addEventToSessionQueue_cleanup]

theorem sendSessionEnd_cleanup (st : ClientState) (sessionId : String) (now : Nat) :
    (sendSessionEnd st sessionId now).sessionCleanupInProgress =
      st.sessionCleanupInProgress := by
  unfold sendSessionEnd
  cases hm : mget st.activeSessions sessionId with
  | none => simp
  | some sd => simp [addEventToSessionQueue_cleanup]

/-- C10: while a cleanup for an id is in progress, `closeSession` and
`forceCloseSession` for the same id return immediately with the state
completely unchanged (so nothing is enqueued and the registry is not
touched); `forceCloseSession` is likewise a no-op when the id is not
registered; and a cleanup that does run always removes the id from the
cleanup-in-progress set on completion. -/
theorem cleanup_in_progress_guard (stA stB stC : ClientState) (sessionId : String)
    (now : Nat)
    (hA : sessionId ∈ stA.sessionCleanupInProgress)
    (hB : mget stB.activeSessions sessionId = none)
    (hC : sessionId ∉ stC.sessionCleanupInProgress) :
    closeSession stA sessionId now = stA ∧
    forceCloseSession stA sessionId = stA ∧
    forceCloseSession stB sessionId = stB ∧
    sessionId ∉ (closeSession stC sessionId now).sessionCleanupInProgress ∧
    sessionId ∉ (forceCloseSession stC sessionId).sessionCleanupInProgress := by
  refine ⟨by simp [closeSession, hA], by simp [forceCloseSession, hA], ?_, ?_, ?_⟩
  · simp [forceCloseSession, hB]
  · rw [closeSession]
    simp only [hC, if_false]
    rw [sendSessionEnd_cleanup, sendPromptEnd_cleanup, sendContentEnd_cleanup]
    simp [List.erase_cons_head, hC]
  · rw [forceCloseSession]
    by_cases hreg : (mget stC.activeSessions sessionId).isNone
    · simp [hreg, hC]
    · simp only [hC, hreg, false_or, if_false]
      simp [List.erase_cons_head, hC]

theorem cleanup_in_progress_guard_witness :
    closeSession { emptyClientState with sessionCleanupInProgress := ["s1"] } "s1" 0 =
      { emptyClientState with sessionCleanupInProgress := ["s1"] } ∧
    forceCloseSession { emptyClientState with sessionCleanupInProgress := ["s1"] } "s1" =
      { emptyClientState with sessionCleanupInProgress := ["s1"] } ∧
    forceCloseSession emptyClientState "s1" = emptyClientState ∧
    "s1" ∉ (closeSession wSt "s1" 0).sessionCleanupInProgress ∧
    "s1" ∉ (forceCloseSession wSt "s1").sessionCleanupInProgress :=
  cleanup_in_progress_guard { emptyClientState with sessionCleanupInProgress := ["s1"] }
    emptyClientState wSt "s1" 0 (by decide) (by decide) (by decide)

theorem mem_keys_mset {α : Type} (m : List (String × α)) (k : String) (v : α)
    (a : String) (h : a ∈ (mset m k v).map Prod.fst) :
    a ∈ m.map Prod.fst ∨ a = k := by
  induction m with
  | nil => simpa [mset] using h
  | cons p ps ih =>
    by_cases hp : p.1 = k
    · simp only [mset, hp, if_true, List.map_cons, List.mem_cons] at h
      rcases h with h | h
      · exact Or.inr h
      · exact Or.inl (by simp [h])
    · simp only [mset, hp, if_false, List.map_cons, List.mem_cons] at h
      rcases h with h | h
      · exact Or.inl (by simp [h])
      · rcases ih h with h' | h'
        · exact Or.inl (by simp [h'])
        · exact Or.inr h'

theorem keys_mset_nodup {α : Type} (m : List (String × α)) (k : String) (v : α)
    (h : (m.map Prod.fst).Nodup) : ((mset m k v).map Prod.fst).Nodup := by
  induction m with
  | nil => simp [mset]
  | cons p ps ih =>
    simp only [List.map_cons, List.nodup_cons] at h
    by_cases hp : p.1 = k
    · simp only [mset, hp, if_true, List.map_cons, List.nodup_cons]
      exact ⟨fun hm => h.1 (hp ▸ hm), h.2⟩
    · simp only [mset, hp, if_false, List.map_cons, List.nodup_cons]
      refine ⟨fun hm => ?_, ih h.2⟩
      rcases mem_keys_mset ps k v p.1 hm with h' | h'
      · exact h.1 h'
      · exact hp h'

theorem sendContentEnd_run (u : ClientState) (sessionId : String) (sd : SessionData)
    (now : Nat) (h : mget u.activeSessions sessionId = some sd)
    (hact : sd.isActive = true) (has : sd.isAudioContentStartSent = true) :
    sendContentEnd u sessionId now =
      { u with
        sessionLastActivity := mset u.sessionLastActivity sessionId now,
        activeSessions := (mset u.activeSessions sessionId { sd with queue := sd.queue ++ [contentEndEv sd.promptName sd.audioContentId] }),
        sentLog := u.sentLog ++ [(sessionId, contentEndEv sd.promptName sd.audioContentId)] } := by
  unfold sendContentEnd addEventToSessionQueue
  rw [h]
  simp [has, hact]

theorem sendPromptEnd_run (u : ClientState) (sessionId : String) (sd : SessionData)
    (now : Nat) (h : mget u.activeSessions sessionId = some sd)
    (hact : sd.isActive = true) (hps : sd.isPromptStartSent = true) :
    sendPromptEnd u sessionId now =
      { u with
        sessionLastActivity := mset u.sessionLastActivity sessionId now,
        activeSessions := (mset u.activeSessions sessionId { sd with queue := sd.queue ++ [promptEndEv sd.promptName] }),
        sentLog := u.sentLog ++ [(sessionId, promptEndEv sd.promptName)] } := by
  unfold sendPromptEnd addEventToSessionQueue
  rw [h]
  simp [hps, hact]

theorem sendSessionEnd_run (u : ClientState) (sessionId : String) (sd : SessionData)
    (now : Nat) (h : mget u.activeSessions sessionId = some sd)
    (hact : sd.isActive = true) :
    sendSessionEnd u sessionId now =
      { u with
        sessionLastActivity := mdel (mset u.sessionLastActivity sessionId now) sessionId,
        activeSessions := mdel (mset u.activeSessions sessionId { sd with queue := sd.queue ++ [sessionEndEv] }) sessionId,
        sentLog := u.sentLog ++ [(sessionId, sessionEndEv)] } := by
  unfold sendSessionEnd addEventToSessionQueue
  rw [h]
  simp [hact]

/-- Chained effect of the three-step close sequence on any state whose
session is registered, active, and has both start flags set: the three
control events are appended to the sent log in order; the session is still
registered after the content-end and prompt-end steps, and deregistered
exactly at the session-end step. -/
theorem close_chain (u : ClientState) (sessionId : String) (sd : SessionData) (now : Nat)
    (h : mget u.activeSessions sessionId = some sd)
    (hact : sd.isActive = true)
    (hps : sd.isPromptStartSent = true)
    (has : sd.isAudioContentStartSent = true)
    (hnodup : (u.activeSessions.map Prod.fst).Nodup) :
    (sendSessionEnd (sendPromptEnd (sendContentEnd u sessionId now) sessionId now)
        sessionId now).sentLog =
      u.sentLog ++ [(sessionId, contentEndEv sd.promptName sd.audioContentId),
                    (sessionId, promptEndEv sd.promptName),
                    (sessionId, sessionEndEv)] ∧
    (mget (sendContentEnd u sessionId now).activeSessions sessionId).isSome = true ∧
    (mget (sendPromptEnd (sendContentEnd u sessionId now) sessionId now).activeSessions
      sessionId).isSome = true ∧
    mget (sendSessionEnd (sendPromptEnd (sendContentEnd u sessionId now) sessionId now)
      sessionId now).activeSessions sessionId = none := by
  have e1 := sendContentEnd_run u sessionId sd now h hact has
  have h1 : mget (sendContentEnd u sessionId now).activeSessions sessionId =
      some { sd with queue := sd.queue ++ [contentEndEv sd.promptName sd.audioContentId] } := by
    rw [e1]
    simp [mget_mset_self]
  have e2 := sendPromptEnd_run (sendContentEnd u sessionId now) sessionId _ now h1 hact hps
  have h2 : mget (sendPromptEnd (sendContentEnd u sessionId now) sessionId now).activeSessions
      sessionId = some { sd with queue := (sd.queue ++ [contentEndEv sd.promptName sd.audioContentId]) ++ [promptEndEv sd.promptName] } := by
    rw [e2]
    simp [mget_mset_self]
  have e3 := sendSessionEnd_run (sendPromptEnd (sendContentEnd u sessionId now) sessionId now)
    sessionId _ now h2 hact
  have hnodup2 : ((sendPromptEnd (sendContentEnd u sessionId now) sessionId now).activeSessions.map
      Prod.fst).Nodup := by
    rw [e2, e1]
    exact keys_mset_nodup _ _ _ (keys_mset_nodup _ _ _ hnodup)
  refine ⟨?_, ?_, ?_, ?_⟩
  · rw [e3, e2, e1]
    simp
  · rw [h1]
    rfl
  · rw [h2]
    rfl
  · rw [e3]
    exact mget_mdel_self _ _ (keys_mset_nodup _ _ _ hnodup2)

/-- C7: for every active session whose prompt-start and audio content-start
events have been sent, the orchestrator's `closeSession` enqueues exactly
content-end (audio channel), then prompt-end, then session-end, in that
order, and the session is removed from the active-session registry only at
the session-end step — it is still registered after each of the first two
steps.  (The `Nodup` hypothesis states that registry keys are unique, which
holds of every JavaScript `Map`.) -/
theorem graceful_close_sequencing (st : ClientState) (sessionId : String)
    (sd : SessionData) (now : Nat)
    (h : mget st.activeSessions sessionId = some sd)
    (hact : sd.isActive = true)
    (hps : sd.isPromptStartSent = true)
    (has : sd.isAudioContentStartSent = true)
    (hcl : sessionId ∉ st.sessionCleanupInProgress)
    (hnodup : (st.activeSessions.map Prod.fst).Nodup) :
    (closeSession st sessionId now).sentLog =
      st.sentLog ++ [(sessionId, contentEndEv sd.promptName sd.audioContentId),
                     (sessionId, promptEndEv sd.promptName),
                     (sessionId, sessionEndEv)] ∧
    mget (closeSession st sessionId now).activeSessions sessionId = none ∧
    (mget (sendContentEnd st sessionId now).activeSessions sessionId).isSome = true ∧
    (mget (sendPromptEnd (sendContentEnd st sessionId now) sessionId now).activeSessions
      sessionId).isSome = true ∧
    mget (sendSessionEnd (sendPromptEnd (sendContentEnd st sessionId now) sessionId now)
      sessionId now).activeSessions sessionId = none := by
  have hchain := close_chain st sessionId sd now h hact hps has hnodup
  have hchain0 := close_chain
    { st with sessionCleanupInProgress := sessionId :: st.sessionCleanupInProgress }
    sessionId sd now h hact hps has hnodup
  refine ⟨?_, ?_, hchain.2.1, hchain.2.2.1, hchain.2.2.2⟩
  · rw [closeSession]
    simp only [hcl, if_false]
    exact hchain0.1
  · rw [closeSession]
    simp only [hcl, if_false]
    exact hchain0.2.2.2

theorem graceful_close_sequencing_witness :
    (closeSession wStFlags "s1" 0).sentLog =
      wStFlags.sentLog ++ [("s1", contentEndEv wSdFlags.promptName wSdFlags.audioContentId),
                           ("s1", promptEndEv wSdFlags.promptName),
                           ("s1", sessionEndEv)] ∧
    mget (closeSession wStFlags "s1" 0).activeSessions "s1" = none ∧
    (mget (sendContentEnd wStFlags "s1" 0).activeSessions "s1").isSome = true ∧
    (mget (sendPromptEnd (sendContentEnd wStFlags "s1" 0) "s1" 0).activeSessions
      "s1").isSome = true ∧
    mget (sendSessionEnd (sendPromptEnd (sendContentEnd wStFlags "s1" 0) "s1" 0)
      "s1" 0).activeSessions "s1" = none :=
  graceful_close_sequencing wStFlags "s1" wSdFlags 0 (by decide) (by decide) (by decide)
    (by decide) (by decide) (by decide)

theorem foldl_lookup_mem (k : String) (fs : List (String × Json)) :
    ∀ (a : Option Json) (q : Json),
    fs.foldl (fun acc p => if p.1 = k then some p.2 else acc) a = some q →
    (∃ p ∈ fs, p.1 = k) ∨ a = some q := by
  induction fs with
  | nil => intro a q h; exact Or.inr h
  | cons p ps ih =>
    intro a q h
    simp only [List.foldl_cons] at h
    rcases ih _ _ h with h' | h'
    · rcases h' with ⟨p', hp', hk⟩
      exact Or.inl ⟨p', List.mem_cons_of_mem p hp', hk⟩
    · by_cases hp : p.1 = k
      · exact Or.inl ⟨p, List.mem_cons_self p ps, hp⟩
      · rw [if_neg hp] at h'
        exact Or.inr h'

theorem hasKey_of_jget_some (fs : List (String × Json)) (k : String) (q : Json)
    (h : jget (Json.obj fs) k = some q) : hasKey (Json.obj fs) k = true := by
  simp only [jget] at h
  rcases foldl_lookup_mem k fs none q h with ⟨p, hp, hk⟩ | h'
  · simp only [hasKey, List.any_eq_true]
    exact ⟨p, hp, by simp [hk]⟩
  · exact absurd h' (by simp)

/-- C6: each of the four documented payload shapes — a JSON-encoded string
under `content`, a nested object under `input.json`, a JSON-encoded string
under `input`, and a bare object with a `query` field — parses to the
identical `{query, maxResults}` structure for the same underlying data;
a shape-1 payload whose JSON fails to parse yields `none` (the internal
catch), and a payload matching none of the four guards yields `none`; the
model is a total function, mirroring that `parseToolUseContent` catches
internally and never throws into the response loop. -/
theorem tool_payload_shapes (s : String) (fs : List (String × Json)) (q m : Json)
    (hparse : jsonParse s = some (Json.obj fs))
    (hq : jget (Json.obj fs) "query" = some q)
    (hm : jget (Json.obj fs) "maxResults" = some m)
    (hnc : jget (Json.obj fs) "content" = none)
    (hni : jget (Json.obj fs) "input" = none) :
    parseToolUseContent (Json.obj [("content", Json.str s)]) =
      some { query := some q, maxResults := some m } ∧
    parseToolUseContent (Json.obj [("input", Json.obj [("json", Json.obj fs)])]) =
      some { query := some q, maxResults := some m } ∧
    parseToolUseContent (Json.obj [("input", Json.str s)]) =
      some { query := some q, maxResults := some m } ∧
    parseToolUseContent (Json.obj fs) =
      some { query := some q, maxResults := some m } ∧
    (∀ s2 : String, jsonParse s2 = none →
      parseToolUseContent (Json.obj [("content", Json.str s2)]) = none) ∧
    (∀ tc : Json, (∀ x : String, jget tc "content" ≠ some (Json.str x)) →
      ¬(truthyO (jchain (jget tc "input") "json") = true ∧
        isObjectTypeO (jchain (jget tc "input") "json") = true) →
      (∀ x : String, jget tc "input" ≠ some (Json.str x)) →
      ¬(truthy tc = true ∧ isObjectType tc = true ∧ hasKey tc "query" = true) →
      parseToolUseContent tc = none) := by
  have hc1 : jget (Json.obj [("content", Json.str s)]) "content" = some (Json.str s) := by
    simp [jget]
  have hi2c : jget (Json.obj [("input", Json.obj [("json", Json.obj fs)])]) "content" = none := by
    simp [jget]
  have hi2 : jget (Json.obj [("input", Json.obj [("json", Json.obj fs)])]) "input" =
      some (Json.obj [("json", Json.obj fs)]) := by
    simp [jget]
  have hi2j : jget (Json.obj [("json", Json.obj fs)]) "json" = some (Json.obj fs) := by
    simp [jget]
  have hi3c : jget (Json.obj [("input", Json.str s)]) "content" = none := by
    simp [jget]
  have hi3 : jget (Json.obj [("input", Json.str s)]) "input" = some (Json.str s) := by
    simp [jget]
  refine ⟨?_, ?_, ?_, ?_, ?_, ?_⟩
  · unfold parseToolUseContent
    simp only [hc1, hparse, hq, hm]
  · unfold parseToolUseContent
    simp only [hi2c, hi2, jchain, hi2j, truthyO, truthy, isObjectTypeO, isObjectType,
      and_self, if_true, Option.getD, hq, hm]
  · unfold parseToolUseContent
    have hstr : jget (Json.str s) "json" = none := rfl
    simp only [hi3c, hi3, jchain, hstr, truthyO, isObjectTypeO, Bool.false_eq_true,
      false_and, if_false]
    simp only [hparse, hq, hm]
  · unfold parseToolUseContent
    simp only [hnc, jchain, hni, truthyO, isObjectTypeO]
    norm_num [truthy, isObjectType, hasKey_of_jget_some fs "query" q hq]
    simp only [hq, hm]
    norm_num
  · intro s2 h2
    unfold parseToolUseContent
    have hc2 : jget (Json.obj [("content", Json.str s2)]) "content" = some (Json.str s2) := by
      simp [jget]
    simp only [hc2, h2]
  · intro tc hc hj hi h4
    unfold parseToolUseContent
    split
    · rename_i s' heq
      exact absurd heq (hc s')
    · rw [if_neg hj]
      split
      · rename_i s' heq
        exact absurd heq (hi s')
      · rw [if_neg ?_]
        intro ⟨a, b, c⟩
        exact h4 ⟨a, b, c⟩

theorem tool_payload_shapes_witness :
    parseToolUseContent (Json.obj [("content", Json.str kbQueryStr)]) =
      some { query := some (Json.str "a"), maxResults := some (Json.num 3) } ∧
    parseToolUseContent (Json.obj [("input", Json.obj [("json", Json.obj kbQueryObj)])]) =
      some { query := some (Json.str "a"), maxResults := some (Json.num 3) } ∧
    parseToolUseContent (Json.obj [("input", Json.str kbQueryStr)]) =
      some { query := some (Json.str "a"), maxResults := some (Json.num 3) } ∧
    parseToolUseContent (Json.obj kbQueryObj) =
      some { query := some (Json.str "a"), maxResults := some (Json.num 3) } ∧
    parseToolUseContent (Json.obj [("content", Json.str "not json")]) = none ∧
    parseToolUseContent (Json.num 5) = none := by
  have h := tool_payload_shapes kbQueryStr kbQueryObj (Json.str "a") (Json.num 3)
    (by decide) (by decide) (by decide) (by decide) (by decide)
  refine ⟨h.1, h.2.1, h.2.2.1, h.2.2.2.1, h.2.2.2.2.1 "not json" (by decide), ?_⟩
  refine h.2.2.2.2.2 (Json.num 5) ?_ (by decide) ?_ (by decide)
  · intro x hx
    simp [jget] at hx
  · intro x hx
    simp [jget] at hx

theorem mset_mset {α : Type} (m : List (String × α)) (k : String) (v w : α) :
    mset (mset m k v) k w = mset m k w := by
  induction m with
  | nil => simp [mset]
  | cons p ps ih =>
    by_cases hp : p.1 = k
    · simp [mset, hp]
    · simp [mset, hp, ih]

theorem processJsonEvent_toolUse (st : ClientState) (sessionId : String) (sd : SessionData)
    (now : Nat) (contentId : String) (kbResult : Json) (p : Json)
    (h : mget st.activeSessions sessionId = some sd) (hact : sd.isActive = true)
    (htr : truthy p = true) :
    processJsonEvent st sessionId now contentId kbResult (toolUseEnv p) =
      ({ st with
          sessionLastActivity := mset st.sessionLastActivity sessionId now,
          activeSessions := (mset st.activeSessions sessionId
            { sd with toolUseContent := p, toolUseId := jgetD p "toolUseId",
                      toolName := jgetD p "toolName" }) },
       [("toolUse", p)]) := by
  unfold processJsonEvent updateSessionActivity
  rw [h]
  simp [hact, toolUseEnv, jget, jchain, truthyO, htr]

theorem processJsonEvents_toolUses (sessionId : String) (now : Nat) (contentId : String)
    (kbResult : Json) :
    ∀ (ps : List Json) (hne : ps ≠ []) (st : ClientState) (sd : SessionData),
    mget st.activeSessions sessionId = some sd → sd.isActive = true →
    (∀ p ∈ ps, truthy p = true) →
    (processJsonEvents st sessionId now contentId kbResult (ps.map toolUseEnv)).1 =
      { st with
        sessionLastActivity := mset st.sessionLastActivity sessionId now,
        activeSessions := (mset st.activeSessions sessionId
          { sd with toolUseContent := ps.getLast hne,
                    toolUseId := jgetD (ps.getLast hne) "toolUseId",
                    toolName := jgetD (ps.getLast hne) "toolName" }) } := by
  intro ps
  induction ps with
  | nil => intro hne; exact absurd rfl hne
  | cons p ps' ih =>
    intro hne st sd h hact htr
    cases ps' with
    | nil =>
      simp only [List.map_cons, List.map_nil, processJsonEvents]
      rw [processJsonEvent_toolUse st sessionId sd now contentId kbResult p h hact
        (htr p (List.mem_cons_self p []))]
      rfl
    | cons p2 ps2 =>
      have h1 := processJsonEvent_toolUse st sessionId sd now contentId kbResult p h hact
        (htr p (List.mem_cons_self p (p2 :: ps2)))
      have hL : mget (mset st.activeSessions sessionId
          { sd with toolUseContent := p, toolUseId := jgetD p "toolUseId",
                    toolName := jgetD p "toolName" }) sessionId =
          some { sd with toolUseContent := p, toolUseId := jgetD p "toolUseId",
                         toolName := jgetD p "toolName" } := mget_mset_self _ _ _
      have hih := ih (List.cons_ne_nil p2 ps2)
        { st with
          sessionLastActivity := mset st.sessionLastActivity sessionId now,
          activeSessions := (mset st.activeSessions sessionId
            { sd with toolUseContent := p, toolUseId := jgetD p "toolUseId",
                      toolName := jgetD p "toolName" }) }
        { sd with toolUseContent := p, toolUseId := jgetD p "toolUseId",
                  toolName := jgetD p "toolName" }
        hL hact (fun q hq => htr q (List.mem_cons_of_mem p hq))
      have e : (processJsonEvents st sessionId now contentId kbResult
          ((p :: p2 :: ps2).map toolUseEnv)).1 =
          (processJsonEvents (processJsonEvent st sessionId now contentId kbResult
            (toolUseEnv p)).1 sessionId now contentId kbResult
            ((p2 :: ps2).map toolUseEnv)).1 := rfl
      rw [e, h1]
      refine Eq.trans ?_ (Eq.trans hih ?_)
      · rfl
      · simp only [mset_mset]
        rw [List.getLast_cons (List.cons_ne_nil p2 ps2)]

theorem processJsonEvent_contentEndTool (st : ClientState) (sessionId : String)
    (sd : SessionData) (now : Nat) (contentId : String) (kbResult : Json)
    (tn : String) (qp : QueryParams)
    (h : mget st.activeSessions sessionId = some sd) (hact : sd.isActive = true)
    (htn : sd.toolName = Json.str tn)
    (hlow : strToLower tn = "retrieve_kb_docs")
    (hparse : parseToolUseContent sd.toolUseContent = some qp) :
    processJsonEvent st sessionId now contentId kbResult contentEndToolEnv =
      (sendToolResult (updateSessionActivity st sessionId now) sessionId sd.toolUseId
        kbResult contentId now,
       [("toolEnd", Json.obj [("toolUseContent", sd.toolUseContent),
          ("toolUseId", sd.toolUseId), ("toolName", sd.toolName)]),
        ("toolResult", Json.obj [("toolUseId", sd.toolUseId), ("result", kbResult)])]) := by
  unfold processJsonEvent
  rw [h]
  simp [hact, contentEndToolEnv, jget, jchain, truthyO, truthy, processToolUse, htn, hlow,
    hparse]

theorem sendToolResult_run (u : ClientState) (sessionId : String) (sd : SessionData)
    (toolUseId result : Json) (contentId : String) (now : Nat)
    (h : mget u.activeSessions sessionId = some sd) (hact : sd.isActive = true) :
    (mget (sendToolResult u sessionId toolUseId result contentId now).activeSessions
      sessionId).map SessionData.queue =
      some (sd.queue ++
        [toolContentStartEv sd.promptName contentId toolUseId,
         toolResultEv sd.promptName contentId (stringifyResult result),
         contentEndEv sd.promptName contentId]) := by
  have h1 := addEventToSessionQueue_mget u sessionId sd
    (toolContentStartEv sd.promptName contentId toolUseId) now h hact
  have h2 := addEventToSessionQueue_mget _ sessionId _
    (toolResultEv sd.promptName contentId (stringifyResult result)) now h1 hact
  have h3 := addEventToSessionQueue_mget _ sessionId _
    (contentEndEv sd.promptName contentId) now h2 hact
  unfold sendToolResult
  rw [h]
  simp only [hact, not_true, Bool.not_true, Bool.false_eq_true, if_false]
  rw [h3]
  simp [List.append_assoc]

/-- C3: when an inbound `contentEnd` of type TOOL is processed after one or
more `toolUse` events (the last of which names the supported retrieval tool
and carries a parseable payload), the outbound queue receives exactly the
three-event sequence content-start (type TOOL, role TOOL), then toolResult,
then content-end, all three tagged with the single freshly generated
content identifier `contentId`; the correlated `toolUseId` in the
content-start equals the `toolUseId` of the most recently observed
`toolUse` event, and the content is the resolved value, stringified unless
it is already a string. -/
theorem tool_result_correlation (st : ClientState) (sessionId : String) (sd : SessionData)
    (now : Nat) (contentId : String) (kbResult : Json) (ps : List Json) (hne : ps ≠ [])
    (tn : String) (qp : QueryParams)
    (h : mget st.activeSessions sessionId = some sd) (hact : sd.isActive = true)
    (htr : ∀ p ∈ ps, truthy p = true)
    (htn : jget (ps.getLast hne) "toolName" = some (Json.str tn))
    (hlow : strToLower tn = "retrieve_kb_docs")
    (hparse : parseToolUseContent (ps.getLast hne) = some qp) :
    (mget (processJsonEvent
        (processJsonEvents st sessionId now contentId kbResult (ps.map toolUseEnv)).1
        sessionId now contentId kbResult contentEndToolEnv).1.activeSessions sessionId).map
      SessionData.queue =
      some (sd.queue ++
        [toolContentStartEv sd.promptName contentId (jgetD (ps.getLast hne) "toolUseId"),
         toolResultEv sd.promptName contentId (stringifyResult kbResult),
         contentEndEv sd.promptName contentId]) := by
  have hfold := processJsonEvents_toolUses sessionId now contentId kbResult ps hne st sd
    h hact htr
  have hL : mget (processJsonEvents st sessionId now contentId kbResult
      (ps.map toolUseEnv)).1.activeSessions sessionId =
      some { sd with toolUseContent := ps.getLast hne,
                     toolUseId := jgetD (ps.getLast hne) "toolUseId",
                     toolName := jgetD (ps.getLast hne) "toolName" } := by
    rw [hfold]
    exact mget_mset_self _ _ _
  have hstep := processJsonEvent_contentEndTool _ sessionId _ now contentId kbResult tn qp
    hL hact (by simp [jgetD, htn]) hlow (by simpa using hparse)
  rw [hstep]
  have hU : mget (updateSessionActivity (processJsonEvents st sessionId now contentId
      kbResult (ps.map toolUseEnv)).1 sessionId now).activeSessions sessionId =
      some { sd with toolUseContent := ps.getLast hne,
                     toolUseId := jgetD (ps.getLast hne) "toolUseId",
                     toolName := jgetD (ps.getLast hne) "toolName" } := hL
  have hrun := sendToolResult_run _ sessionId _
    (jgetD (ps.getLast hne) "toolUseId") kbResult contentId now hU hact
  simpa using hrun

theorem tool_result_correlation_witness :
    (mget (processJsonEvent
        (processJsonEvents wSt "s1" 0 "cid" (Json.str "ok") ([wToolUse].map toolUseEnv)).1
        "s1" 0 "cid" (Json.str "ok") contentEndToolEnv).1.activeSessions "s1").map
      SessionData.queue =
      some (wSd.queue ++
        [toolContentStartEv wSd.promptName "cid"
          (jgetD ([wToolUse].getLast (by decide)) "toolUseId"),
         toolResultEv wSd.promptName "cid" (stringifyResult (Json.str "ok")),
         contentEndEv wSd.promptName "cid"]) :=
  tool_result_correlation wSt "s1" wSd 0 "cid" (Json.str "ok") [wToolUse] (by decide)
    "retrieve_kb_docs" { query := some (Json.str "refund"), maxResults := none }
    (by decide) (by decide) (by decide) (by decide) (by decide) (by decide)
